import Mathlib

/-
Verification development for the remote worker pool of
testplan/runners/pools/remote.py.

Python strings are modelled as `List Char` (Python 2/3 str: a sequence of
code points; comparisons and prefix tests are code-point-wise, exactly as
in CPython).  Fallible code returns `Except PyErr`, remote side effects
(the subprocess commands the worker would run) are returned explicitly as
`List RCmd` values, and mutable worker attributes are threaded as explicit
state records.
-/

deriving instance DecidableEq for Except

/-- Python string comparison `a <= b` (code-point lexicographic), as used by
`list.sort(key=...)` on string keys in `_build_push_lists`. -/
def lexLe : List Char → List Char → Bool
  | [], _ => true
  | _ :: _, [] => false
  | a :: as, b :: bs => if a < b then true else if a = b then lexLe as bs else false

/-- Python `sep.join(parts)` for a one-character separator, as in
`'/'.join(...)` of `_define_remote_dirs` and `_build_push_dests`. -/
def pyJoinStr (sep : Char) : List (List Char) → List Char
  | [] => []
  | [x] => x
  | x :: y :: rest => x ++ sep :: pyJoinStr sep (y :: rest)

/-- Python `s.split(sep)` for a one-character separator, as in
`self._workspace_paths.local.split(os.sep)` of `_copy_workspace`.
Always returns a non-empty list; `''.split(c) == ['']`. -/
def pySplit (sep : Char) : List Char → List (List Char)
  | [] => [[]]
  | c :: rest =>
    if c = sep then [] :: pySplit sep rest
    else
      match pySplit sep rest with
      | h :: t => (c :: h) :: t
      | [] => [[c]]

/-- Python `s.rstrip(ch)` for a one-character strip set, as in
`source.rstrip(os.sep)` of `_build_push_lists`. -/
def pyRstrip (ch : Char) (s : List Char) : List Char :=
  ((s.reverse).dropWhile (fun c => c = ch)).reverse

/-- The first component of Python `s.rpartition(ch)`: everything before the
last occurrence of `ch`, or `''` when `ch` does not occur.  Used as
`dest.rpartition('/')[0]` in `_push_files_to_dst`. -/
def rpartBefore (ch : Char) (s : List Char) : List Char :=
  (((s.reverse).dropWhile (fun c => c ≠ ch)).drop 1).reverse

/-- Modelled from the spec: `testplan.common.utils.path.to_posix_path` is not
under src/; the spec describes it as converting local OS separators to
POSIX `'/'` separators ("converted to POSIX").  `sep` is the local
`os.sep`. -/
def to_posix_path (sep : Char) (p : List Char) : List Char :=
  p.map (fun c => if c = sep then '/' else c)

/-- Modelled from the spec: `testplan.common.utils.path.is_subdir` is not
under src/; the spec requires "the local working directory must be a
subdirectory of the local workspace" and the sources use it as a
containment test, modelled as a string-prefix check of the child path
against the parent path. -/
def is_subdir (child parent : List Char) : Bool :=
  parent.isPrefixOf child

/-- Python `os.path.relpath(p, start)` restricted to the case used by the
sources, where `start` is a prefix of `p` (guarded by `is_subdir` or
`startswith`): drop the `start` prefix, then drop leading separators. -/
def relpathUnder (sep : Char) (p start : List Char) : List Char :=
  (p.drop start.length).dropWhile (fun c => c = sep)

/-- Python `os.path.join(a, b)` restricted to a relative second argument:
`a` empty gives `b`; `a` ending in the separator appends directly;
otherwise a separator is inserted. -/
def pyJoin2 (sep : Char) (a b : List Char) : List Char :=
  if a = [] then b
  else if a.getLast? = some sep then a ++ b
  else a ++ sep :: b

/-- Python `os.path.commonprefix([a, b])`: the longest common string
prefix of the two paths, as used by `_add_testplan_import_path`. -/
def commonpfx2 : List Char → List Char → List Char
  | [], _ => []
  | _, [] => []
  | a :: as, b :: bs => if a = b then a :: commonpfx2 as bs else []

/-- `_LocationPaths`: store local and remote equivalent paths.  The source
field `local` is a Lean keyword, so the fields are named `localPath` and
`remotePath` here. -/
structure _LocationPaths where
  localPath : List Char
  remotePath : List Char
  deriving DecidableEq, Repr

/-- `WorkerSetupMetadata.__init__`: metadata used on worker setup stage
execution; all fields start as `None` and `workspace_pushed` as `False`. -/
structure WorkerSetupMetadata where
  push_dirs : Option (List (List Char)) := none
  push_files : Option (List (List Char)) := none
  push_dir : Option (List Char) := none
  setup_script : Option (List (List Char)) := none
  env : Option (List (List Char × List Char)) := none
  workspace_paths : Option _LocationPaths := none
  workspace_pushed : Bool := false
  deriving DecidableEq, Repr

/-- One element of the `push` configuration list: either a plain string
path or a tuple (whose length the code inspects with `len`). -/
inductive PushItem where
  | str : List Char → PushItem
  | tup : List (List Char) → PushItem
  deriving DecidableEq, Repr

/-- Python `len` of a push-config element: string length for strings,
tuple arity for tuples. -/
def pyLen : PushItem → Nat
  | .str s => s.length
  | .tup t => t.length

/-- `isinstance(cfg, six.string_types)` for one push-config element. -/
def isStrItem : PushItem → Bool
  | .str _ => true
  | .tup _ => false

/-- Python tuple unpacking `source, dest = pair` for an element of length
two: a 2-tuple unpacks to its components; a 2-character string unpacks to
two 1-character strings.  Only reached under the `len(pair) == 2` guard of
`_build_push_lists`; other shapes yield a junk value there. -/
def unpackPair : PushItem → (List Char × List Char)
  | .str [a, b] => ([a], [b])
  | .tup [a, b] => (a, b)
  | _ => ([], [])

/-- Result of `os.path.isfile` / `os.path.isdir` on a local path: the
local filesystem is a parameter of the embedding. -/
inductive FileKind where
  | file : FileKind
  | dir : FileKind
  | missing : FileKind
  deriving DecidableEq, Repr

/-- Python exceptions raised by the embedded code. -/
inductive PyErr where
  /-- `TypeError('Expected either a list of 2-tuples or list of strings for push config.')` -/
  | typeErrorPushShape : PyErr
  /-- `RuntimeError('Cannot push path ... - is not within the specified local root ...')` -/
  | runtimeNotUnderRoot : PyErr
  /-- `RuntimeError('Current working dir is not within the workspace.')` -/
  | workingDirOutsideWorkspace : PyErr
  deriving DecidableEq, Repr

/-- Remote subprocess commands issued by the worker, in issue order.
`mkdirRemote` models `_mkdir_remote`, `transferData` models
`_transfer_data` (with its exclude patterns). -/
inductive RCmd where
  | mkdirRemote : List Char → RCmd
  | transferData : List Char → List Char → List (List Char) → RCmd
  deriving DecidableEq, Repr

/-- Warnings logged by `_push_files` / `_build_push_lists` /
`_build_push_lists`'s error log for unstattable entries. -/
inductive PyWarning where
  /-- 'Not been given any files to push - ignoring push configuration options.' -/
  | ignoringPushOptions : PyWarning
  /-- 'Ignoring push_relative_dir configuration as explicit destination paths have been provided.' -/
  | ignoringPushRelativeDir : PyWarning
  /-- 'Item "..." cannot be pushed!' -/
  | cannotBePushed : List Char → PyWarning
  deriving DecidableEq, Repr

/-- The push-related configuration options of `RemoteWorkerConfig`:
`push` may be a list or `None` (schema `Or(list, None)`). -/
structure PushCfg where
  push : Option (List PushItem)
  push_exclude : List (List Char)
  push_relative_dir : Option (List Char)
  deriving DecidableEq, Repr

/-- The worker attributes read and written by the push pipeline.
`RemoteWorker.__init__` sets `self.remote_push_dir = None`;
`_build_push_dests` assigns the differently named `self._remote_push_dir`,
so both attributes are carried. -/
structure WorkerStatePush where
  _remote_testplan_path : List Char
  remote_push_dir : Option (List Char) := none
  _remote_push_dir : Option (List Char) := none
  setup_metadata : WorkerSetupMetadata := {}
  deriving DecidableEq, Repr

/-- The sort key order of `push_dirs.sort(key=lambda x: x.local)`:
compare entries by Python string comparison of their local paths. -/
def locLe (a b : _LocationPaths) : Prop :=
  lexLe a.localPath b.localPath = true

instance : DecidableRel locLe := fun _ _ =>
  inferInstanceAs (Decidable (_ = true))

/-- `push_dirs.sort(key=lambda x: x.local)`: stable ascending sort by the
local path (insertion sort produces the same stable ascending order as
Python's stable sort, since `locLe` is a total preorder). -/
def sortPushDirs (push_dirs : List _LocationPaths) : List _LocationPaths :=
  List.insertionSort locLe push_dirs

/-- The marking loop of `_build_push_lists` lines 276-279: for each
adjacent pair of the sorted list, when the successor's local path starts
with the current entry's local path (`push_dirs[idx + 1].local.startswith(
push_dirs[idx].local)`) the current entry is replaced by `None`; the
subsequent comprehension keeps the non-`None` entries.  Each comparison
reads indices `idx` and `idx + 1`, which earlier iterations never set to
`None`, so the loop is equivalent to this recursion over adjacent pairs. -/
def dedupMarked : List _LocationPaths → List _LocationPaths
  | [] => []
  | [x] => [x]
  | x :: y :: rest =>
    if x.localPath.isPrefixOf y.localPath then dedupMarked (y :: rest)
    else x :: dedupMarked (y :: rest)

/-- The directory-deduplication step of `_build_push_lists` lines 273-280:
`if push_dirs and len(push_dirs) > 1:` sort by local path, run the marking
loop, keep survivors. -/
def dedupPushDirs (push_dirs : List _LocationPaths) : List _LocationPaths :=
  if push_dirs.length > 1 then dedupMarked (sortPushDirs push_dirs)
  else push_dirs

/-- `_to_relative_push_dest`: reject a source outside the configured
relative root (`RuntimeError`), else return
`'/'.join((self._remote_push_dir, to_posix_path(relpath(local_path, relative_root))))`.
`rpd` is the value of `self._remote_push_dir` just assigned by
`_build_push_dests`. -/
def _to_relative_push_dest (sep : Char) (relative_root rpd : List Char)
    (local_path : List Char) : Except PyErr (List Char) :=
  if is_subdir local_path relative_root then
    .ok (pyJoinStr '/' [rpd, to_posix_path sep (relpathUnder sep local_path relative_root)])
  else
    .error .runtimeNotUnderRoot

/-- The list comprehension `[self._to_relative_push_dest(path) for path in
push_sources]` of `_build_push_dests`: map a fallible function over the
sources, propagating the first raised exception. -/
def mapExcept (f : List Char → Except PyErr (List Char)) :
    List (List Char) → Except PyErr (List (List Char))
  | [] => .ok []
  | x :: xs =>
    match f x with
    | .error e => .error e
    | .ok y =>
      match mapExcept f xs with
      | .error e => .error e
      | .ok ys => .ok (y :: ys)

/-- `_build_push_dests`: synthesize destinations when only sources were
given.  With `push_relative_dir` set it assigns
`self._remote_push_dir = '/'.join((self._remote_testplan_path, 'push_files'))`
(note: not the `remote_push_dir` attribute declared in
`RemoteWorker.__init__`), issues `_mkdir_remote` for it, records it as
`setup_metadata.push_dir`, and maps each source through
`_to_relative_push_dest`; otherwise each destination is the POSIX form of
its source. -/
def _build_push_dests (sep : Char) (cfg : PushCfg) (st : WorkerStatePush)
    (push_sources : List (List Char)) :
    Except PyErr (WorkerStatePush × List (List Char) × List RCmd) :=
  match cfg.push_relative_dir with
  | some relative_root =>
    let rpd := pyJoinStr '/' [st._remote_testplan_path, "push_files".toList]
    let st := { st with
      _remote_push_dir := some rpd,
      setup_metadata := { st.setup_metadata with push_dir := some rpd } }
    match mapExcept (_to_relative_push_dest sep relative_root rpd) push_sources with
    | .ok push_dsts => .ok (st, push_dsts, [RCmd.mkdirRemote rpd])
    | .error e => .error e
  | none =>
    .ok (st, push_sources.map (to_posix_path sep), [])

/-- The classification loop of `_build_push_lists` lines 264-271: strip
trailing separators from each source, stat it, and append to the files or
directories list; unstattable entries are logged and skipped. -/
def classifyPush (sep : Char) (fs : List Char → FileKind) :
    List (List Char × List Char) → List _LocationPaths × List _LocationPaths × List PyWarning
  | [] => ([], [], [])
  | (source, dest) :: rest =>
    let source := pyRstrip sep source
    let (files, dirs, warns) := classifyPush sep fs rest
    match fs source with
    | .file => (⟨source, dest⟩ :: files, dirs, warns)
    | .dir => (files, ⟨source, dest⟩ :: dirs, warns)
    | .missing => (files, dirs, .cannotBePushed source :: warns)

/-- `_build_push_lists`: shape detection on `self.cfg.push` (all strings →
synthesize destinations via `_build_push_dests` and zip; otherwise require
every element to have `len == 2`, raising `TypeError` if not, and warn
that `push_relative_dir` is ignored when it is set), then classify each
`(source, dest)` pair by local stat and deduplicate the directory list. -/
def _build_push_lists (sep : Char) (fs : List Char → FileKind) (cfg : PushCfg)
    (st : WorkerStatePush) (push : List PushItem) :
    Except PyErr
      (WorkerStatePush × List _LocationPaths × List _LocationPaths × List RCmd × List PyWarning) :=
  let shaped : Except PyErr
      (WorkerStatePush × List (List Char × List Char) × List RCmd × List PyWarning) :=
    if push.all isStrItem then
      let push_sources := push.map (fun | .str s => s | .tup _ => [])
      match _build_push_dests sep cfg st push_sources with
      | .ok (st, push_dsts, cmds) => .ok (st, push_sources.zip push_dsts, cmds, [])
      | .error e => .error e
    else if !(push.all (fun pair => pyLen pair = 2)) then
      .error .typeErrorPushShape
    else
      let warns := if cfg.push_relative_dir.isSome then [PyWarning.ignoringPushRelativeDir] else []
      .ok (st, push.map unpackPair, [], warns)
  match shaped with
  | .error e => .error e
  | .ok (st, push_locations, cmds, warns) =>
    let (push_files, push_dirs, warns2) := classifyPush sep fs push_locations
    .ok (st, push_files, dedupPushDirs push_dirs, cmds, warns ++ warns2)

/-- `_push_files_to_dst`: for each file then directory entry, create the
remote parent directory `dest.rpartition('/')[0]` and transfer the source
to the destination with the configured `push_exclude` patterns. -/
def _push_files_to_dst (push_exclude : List (List Char))
    (push_files push_dirs : List _LocationPaths) : List RCmd :=
  (push_files ++ push_dirs).flatMap (fun lp =>
    [RCmd.mkdirRemote (rpartBefore '/' lp.remotePath),
     RCmd.transferData lp.localPath lp.remotePath push_exclude])

/-- `_push_files`: short-circuit when `not self.cfg.push` (a `None` or
empty push list), merely warning if other push options are set; otherwise
build the push lists, record the remote paths into
`setup_metadata.push_files` / `setup_metadata.push_dirs`, and push. -/
def _push_files (sep : Char) (fs : List Char → FileKind) (cfg : PushCfg)
    (st : WorkerStatePush) :
    Except PyErr (WorkerStatePush × List RCmd × List PyWarning) :=
  match cfg.push with
  | none => .ok (st, [],
      if cfg.push_exclude ≠ [] ∨ cfg.push_relative_dir.isSome then [PyWarning.ignoringPushOptions] else [])
  | some [] => .ok (st, [],
      if cfg.push_exclude ≠ [] ∨ cfg.push_relative_dir.isSome then [PyWarning.ignoringPushOptions] else [])
  | some push =>
    match _build_push_lists sep fs cfg st push with
    | .error e => .error e
    | .ok (st, push_files, push_dirs, cmds, warns) =>
      let st := { st with setup_metadata := { st.setup_metadata with
        push_files := some (push_files.map _LocationPaths.remotePath),
        push_dirs := some (push_dirs.map _LocationPaths.remotePath) } }
      .ok (st, cmds ++ _push_files_to_dst cfg.push_exclude push_files push_dirs, warns)

/-- The `copy_workspace_check` outcome in `_prepare_remote` lines 426-432:
`none` models an unconfigured check (`copy_workspace_check` set to `None`);
`some rc` models a configured check whose probe command returned exit code
`rc`.  `self._should_transfer_workspace` starts `True` in `__init__` and is
reassigned to `exit code != 0` only when the check is configured. -/
def shouldTransferWorkspace (checkExit : Option Nat) : Bool :=
  match checkExit with
  | none => true
  | some rc => rc != 0

/-- Which of the three mutually exclusive branches `_copy_workspace` took:
link to a user-configured remote workspace, transfer the local workspace,
or link to the local workspace path (shared filesystem). -/
inductive WsAction where
  | linkToRemoteWorkspace : WsAction
  | transferWorkspace : WsAction
  | linkToLocalWorkspace : WsAction
  deriving DecidableEq, Repr

/-- `_copy_workspace` lines 349-374 (branch selection and the
`workspace_pushed` flag): when `self.cfg.remote_workspace` is set, link and
leave the metadata untouched; else when `self._should_transfer_workspace`
is `True`, transfer and set `setup_metadata.workspace_pushed = True`; else
link to the local path.  (The link targets pass through `fix_home_prefix`
and the copy through `workspace_exclude`; neither affects the branch choice
or the flag.) -/
def _copy_workspace (remote_workspace : Option (List Char))
    (_should_transfer_workspace : Bool) (md : WorkerSetupMetadata) :
    WsAction × WorkerSetupMetadata :=
  match remote_workspace with
  | some _ => (.linkToRemoteWorkspace, md)
  | none =>
    if _should_transfer_workspace then
      (.transferWorkspace, { md with workspace_pushed := true })
    else
      (.linkToLocalWorkspace, md)

/-- `_define_remote_dirs`: `self._remote_testplan_path` is
`'/'.join(['', 'var', 'tmp', getpass.getuser(), 'testplan'] +
['remote_workspaces', slugify(self.cfg.parent.parent.name)])`.
`user` models `getpass.getuser()` and `plan_slug` the result of
`slugify` (which lives outside src/) on the plan name. -/
def _define_remote_dirs (user plan_slug : List Char) : List Char :=
  pyJoinStr '/'
    [[], "var".toList, "tmp".toList, user, "testplan".toList,
     "remote_workspaces".toList, plan_slug]

/-- `_copy_child_script` line 192-193: `self._child_paths.remote =
'{}/child.py'.format(self._remote_testplan_path)`. -/
def childRemotePath (remote_testplan_path : List Char) : List Char :=
  remote_testplan_path ++ "/child.py".toList

/-- `_copy_workspace` lines 346-348: `self._workspace_paths.remote =
'{}/{}'.format(self._remote_testplan_path,
self._workspace_paths.local.split(os.sep)[-1])`. -/
def workspaceRemotePath (sep : Char) (remote_testplan_path ws_local : List Char) : List Char :=
  remote_testplan_path ++ '/' :: ((pySplit sep ws_local).getLastD [])

/-- `_remote_working_dir`: raise `RuntimeError` when the local working
directory is not within the local workspace, else
`to_posix_path(os.path.join(workspace_paths.remote,
relpath(working_dirs.local, workspace_paths.local)))`. -/
def _remote_working_dir (sep : Char) (ws_local ws_remote cwd_local : List Char) :
    Except PyErr (List Char) :=
  if !(is_subdir cwd_local ws_local) then
    .error .workingDirOutsideWorkspace
  else
    .ok (to_posix_path sep (pyJoin2 sep ws_remote (relpathUnder sep cwd_local ws_local)))

/-- The inputs of `_proc_cmd` and of the two helpers it calls.  The
interpreter selection (lines 507-513) and the `str(...)` coercions are
modelled by taking the already-stringified values as fields;
`lib_path` models `os.path.abspath(os.path.join(os.path.dirname(
module_abspath(testplan)), '..'))`, the resolved local testplan library
location, and `deps_env` the value of the `TESTPLAN_DEPENDENCIES_PATH`
environment variable. -/
structure ProcCmdCfg where
  python_binary : List Char
  child_remote : List Char
  index : List Char
  address : List Char
  log_level : List Char
  wd_remote : List Char
  runpath_remote : List Char
  pool_type : List Char
  pool_size : List Char
  testplan_path : Option (List Char)
  lib_path : List Char
  ws_localP : List Char
  ws_remoteP : List Char
  sep : Char
  deps_env : Option (List Char)
  _should_transfer_workspace : Bool
  deriving DecidableEq, Repr

/-- `_add_testplan_import_path` with flag `'--testplan'`: use the
configured `testplan_path` when set; else, when the resolved library path
starts with the local workspace path, rewrite it under the remote
workspace as `'{}/{}'.format(workspace_paths.remote,
'/'.join(relpath(lib_path, commonprefix([lib_path, ws_local])).split(os.sep)))`;
else append nothing. -/
def _add_testplan_import_path (cfg : ProcCmdCfg) (cmd : List (List Char)) :
    List (List Char) :=
  match cfg.testplan_path with
  | some p => cmd ++ ["--testplan".toList, p]
  | none =>
    if !(cfg.ws_localP.isPrefixOf cfg.lib_path) then cmd
    else
      let common := commonpfx2 cfg.lib_path cfg.ws_localP
      cmd ++ ["--testplan".toList,
        cfg.ws_remoteP ++ '/' ::
          pyJoinStr '/' (pySplit cfg.sep (relpathUnder cfg.sep cfg.lib_path common))]

/-- `_add_testplan_deps_import_path` with flag `'--testplan-deps'`: append
the flag and the `TESTPLAN_DEPENDENCIES_PATH` value when that environment
variable is set. -/
def _add_testplan_deps_import_path (cfg : ProcCmdCfg) (cmd : List (List Char)) :
    List (List Char) :=
  match cfg.deps_env with
  | some p => cmd ++ ["--testplan-deps".toList, p]
  | none => cmd

/-- `_proc_cmd` lines 514-526: the child-process command token list (the
source finally wraps it as `self.cfg.ssh_cmd(self.cfg.index,
' '.join(cmd))`; the token list before that wrap is modelled here). -/
def _proc_cmd (cfg : ProcCmdCfg) : List (List Char) :=
  let cmd := [cfg.python_binary, "-uB".toList, cfg.child_remote,
    "--index".toList, cfg.index,
    "--address".toList, cfg.address,
    "--type".toList, "remote_worker".toList,
    "--log-level".toList, cfg.log_level,
    "--wd".toList, cfg.wd_remote,
    "--runpath".toList, cfg.runpath_remote,
    "--remote-pool-type".toList, cfg.pool_type,
    "--remote-pool-size".toList, cfg.pool_size]
  let cmd := _add_testplan_import_path cfg cmd
  let cmd := if !cfg._should_transfer_workspace then _add_testplan_deps_import_path cfg cmd else cmd
  cmd

/-- Modelled from the spec: the control-plane message kinds of
`testplan.runners.pools.communication.Message` used by `RemotePool`
(`MetadataPull` inbound, `Metadata` outbound); the module is not under
src/. -/
inductive MsgKind where
  | MetadataPull : MsgKind
  | Metadata : MsgKind
  deriving DecidableEq, Repr

/-- Modelled from the spec: a control-plane message, a kind plus an
optional `SetupMetadata` payload (`response.make(Message.Metadata,
data=...)` builds one; the spec lists `MetadataPull` as carrying no
payload and `Metadata` as carrying the `SetupMetadata`). -/
structure Msg where
  cmd : MsgKind
  data : Option WorkerSetupMetadata := none
  deriving DecidableEq, Repr

/-- `RemotePool._worker_setup_metadata`: the registered handler for
`MetadataPull` requests responds with a `Metadata` message carrying
`worker.setup_metadata` and leaves the worker untouched. -/
def _worker_setup_metadata (setup_metadata : WorkerSetupMetadata) (_response : Msg) :
    WorkerSetupMetadata × Msg :=
  (setup_metadata, { cmd := .Metadata, data := some setup_metadata })

/-- The pool's request loop restricted to `MetadataPull` traffic from one
worker: each incoming `MetadataPull` is dispatched to
`_worker_setup_metadata` (registered in `RemotePool.__init__`), threading
the worker's frozen setup metadata and collecting the responses in order. -/
def processMetadataPulls (setup_metadata : WorkerSetupMetadata) :
    List Msg → WorkerSetupMetadata × List Msg
  | [] => (setup_metadata, [])
  | req :: rest =>
    let (md, resp) := _worker_setup_metadata setup_metadata req
    let (md, resps) := processMetadataPulls md rest
    (md, resp :: resps)

/- ## Order lemmas for Python string comparison -/

theorem lexLe_refl (a : List Char) : lexLe a a = true := by
  induction a with
  | nil => rfl
  | cons c cs ih => simp [lexLe, ih]

theorem lexLe_total (a b : List Char) : lexLe a b = true ∨ lexLe b a = true := by
  induction a generalizing b with
  | nil => left; rfl
  | cons c cs ih =>
    cases b with
    | nil => right; rfl
    | cons d ds =>
      rcases lt_trichotomy c d with h | h | h
      · left; simp [lexLe, h]
      · subst h
        rcases ih ds with h2 | h2
        · left; simp [lexLe, h2]
        · right; simp [lexLe, h2]
      · right; simp [lexLe, h]

theorem lexLe_trans {a b c : List Char} (h1 : lexLe a b = true)
    (h2 : lexLe b c = true) : lexLe a c = true := by
  induction a generalizing b c with
  | nil => rfl
  | cons x xs ih =>
    cases b with
    | nil => simp [lexLe] at h1
    | cons y ys =>
      cases c with
      | nil => simp [lexLe] at h2
      | cons z zs =>
        simp only [lexLe] at h1 h2 ⊢
        rcases lt_trichotomy x y with hxy | hxy | hxy <;>
          rcases lt_trichotomy y z with hyz | hyz | hyz
        · simp [lt_trans hxy hyz]
        · subst hyz; simp [hxy]
        · rw [if_neg (lt_asymm hyz)] at h2
          rw [if_neg (fun h => absurd h (ne_of_gt hyz))] at h2
          simp at h2
        · subst hxy; simp [hyz]
        · subst hxy; subst hyz
          rw [if_neg (lt_irrefl x), if_pos rfl] at h1 h2 ⊢
          exact ih h1 h2
        · subst hxy
          rw [if_neg (lt_asymm hyz)] at h2
          rw [if_neg (fun h => absurd h (ne_of_gt hyz))] at h2
          simp at h2
        · rw [if_neg (lt_asymm hxy)] at h1
          rw [if_neg (fun h => absurd h (ne_of_gt hxy))] at h1
          simp at h1
        · subst hyz
          rw [if_neg (lt_asymm hxy)] at h1
          rw [if_neg (fun h => absurd h (ne_of_gt hxy))] at h1
          simp at h1
        · rw [if_neg (lt_asymm hxy)] at h1
          rw [if_neg (fun h => absurd h (ne_of_gt hxy))] at h1
          simp at h1

theorem lexLe_antisymm {a b : List Char} (h1 : lexLe a b = true)
    (h2 : lexLe b a = true) : a = b := by
  induction a generalizing b with
  | nil =>
    cases b with
    | nil => rfl
    | cons y ys => simp [lexLe] at h2
  | cons x xs ih =>
    cases b with
    | nil => simp [lexLe] at h1
    | cons y ys =>
      simp only [lexLe] at h1 h2
      rcases lt_trichotomy x y with hxy | hxy | hxy
      · rw [if_neg (lt_asymm hxy)] at h2
        rw [if_neg (fun h => absurd h (ne_of_gt hxy))] at h2
        simp at h2
      · subst hxy
        rw [if_neg (lt_irrefl x), if_pos rfl] at h1 h2
        rw [ih h1 h2]
      · rw [if_neg (lt_asymm hxy)] at h1
        rw [if_neg (fun h => absurd h (ne_of_gt hxy))] at h1
        simp at h1

theorem lexLe_of_isPrefix {a b : List Char} (h : a <+: b) : lexLe a b = true := by
  induction a generalizing b with
  | nil => rfl
  | cons x xs ih =>
    cases b with
    | nil => exact absurd h (by simp)
    | cons y ys =>
      rw [List.cons_prefix_cons] at h
      obtain ⟨rfl, h2⟩ := h
      simp [lexLe, ih h2]

theorem lexLe_between {x z y : List Char} (hpre : x <+: y)
    (h1 : lexLe x z = true) (h2 : lexLe z y = true) : x <+: z := by
  induction x generalizing z y with
  | nil => exact List.nil_prefix
  | cons a as ih =>
    cases z with
    | nil => simp [lexLe] at h1
    | cons c cs =>
      cases y with
      | nil => exact absurd hpre (by simp)
      | cons b bs =>
        rw [List.cons_prefix_cons] at hpre
        obtain ⟨rfl, hpre2⟩ := hpre
        by_cases hac : a < c
        · exfalso
          simp only [lexLe] at h2
          rw [if_neg (lt_asymm hac)] at h2
          rw [if_neg (fun h => absurd h (ne_of_gt hac))] at h2
          simp at h2
        · simp only [lexLe] at h1
          rw [if_neg hac] at h1
          by_cases haeq : a = c
          · subst haeq
            rw [if_pos rfl] at h1
            have h2' : lexLe cs bs = true := by
              simp only [lexLe] at h2
              simpa using h2
            exact List.cons_prefix_cons.mpr ⟨rfl, ih hpre2 h1 h2'⟩
          · rw [if_neg haeq] at h1
            simp at h1

/- ## Deduplication lemmas -/

instance : IsTotal _LocationPaths locLe :=
  ⟨fun a b => lexLe_total a.localPath b.localPath⟩

instance : IsTrans _LocationPaths locLe :=
  ⟨fun _ _ _ h1 h2 => lexLe_trans h1 h2⟩

theorem sortPushDirs_sorted (l : List _LocationPaths) :
    (sortPushDirs l).Pairwise locLe :=
  List.sorted_insertionSort locLe l

theorem dedupMarked_sublist (l : List _LocationPaths) :
    (dedupMarked l).Sublist l := by
  induction l with
  | nil => simp [dedupMarked]
  | cons x xs ih =>
    cases xs with
    | nil => simp [dedupMarked]
    | cons y rest =>
      simp only [dedupMarked]
      by_cases h : x.localPath.isPrefixOf y.localPath = true
      · rw [if_pos h]
        exact ih.cons x
      · rw [if_neg h]
        exact ih.cons₂ x

theorem pairwise_head_le {y : _LocationPaths} {rest : List _LocationPaths}
    (hp : (y :: rest).Pairwise locLe) {b : _LocationPaths}
    (hb : b ∈ y :: rest) : locLe y b := by
  rcases List.mem_cons.mp hb with rfl | hmem
  · exact lexLe_refl _
  · exact (List.pairwise_cons.mp hp).1 b hmem

theorem dedupMarked_not_pre {l : List _LocationPaths} (hp : l.Pairwise locLe) :
    (dedupMarked l).Pairwise
      (fun a b => a.localPath.isPrefixOf b.localPath = false) := by
  induction l with
  | nil => simp [dedupMarked]
  | cons x xs ih =>
    cases xs with
    | nil => simp [dedupMarked]
    | cons y rest =>
      have hp' : (y :: rest).Pairwise locLe := hp.of_cons
      simp only [dedupMarked]
      by_cases h : x.localPath.isPrefixOf y.localPath = true
      · rw [if_pos h]
        exact ih hp'
      · rw [if_neg h]
        refine List.pairwise_cons.mpr ⟨?_, ih hp'⟩
        intro b hb
        have hbmem : b ∈ y :: rest := (dedupMarked_sublist _).subset hb
        by_contra hcon
        rw [Bool.not_eq_false] at hcon
        have hpre : x.localPath <+: b.localPath :=
          List.isPrefixOf_iff_prefix.mp hcon
        have hxy : locLe x y := (List.pairwise_cons.mp hp).1 y (by simp)
        have hyb : locLe y b := pairwise_head_le hp' hbmem
        have hp2 := List.isPrefixOf_iff_prefix.mpr (lexLe_between hpre hxy hyb)
        exact h hp2

theorem dedupMarked_sorted {l : List _LocationPaths} (hp : l.Pairwise locLe) :
    (dedupMarked l).Pairwise locLe :=
  List.Pairwise.sublist (dedupMarked_sublist l) hp

/-- C3 (amended): the deduplication step of `_build_push_lists` returns a
list in which no element's local path is a string prefix of any other
element's local path, and whose elements appear in ascending Python-string
order of their local paths (the list is sorted before deduplication), not
in input order. -/
theorem dedup_no_prefix_and_sorted (push_dirs : List _LocationPaths) :
    (dedupPushDirs push_dirs).Pairwise
        (fun a b => a.localPath.isPrefixOf b.localPath = false
          ∧ b.localPath.isPrefixOf a.localPath = false)
    ∧ (dedupPushDirs push_dirs).Pairwise locLe := by
  unfold dedupPushDirs
  by_cases h : push_dirs.length > 1
  · rw [if_pos h]
    have hs : (sortPushDirs push_dirs).Pairwise locLe := sortPushDirs_sorted _
    have h1 := dedupMarked_not_pre hs
    have h2 := dedupMarked_sorted hs
    refine ⟨(h1.and h2).imp ?_, h2⟩
    rintro a b ⟨hab, hle⟩
    refine ⟨hab, ?_⟩
    by_contra hba
    rw [Bool.not_eq_false] at hba
    have hpre : b.localPath <+: a.localPath := List.isPrefixOf_iff_prefix.mp hba
    have heq : a.localPath = b.localPath := lexLe_antisymm hle (lexLe_of_isPrefix hpre)
    have : a.localPath.isPrefixOf b.localPath = true := by
      rw [heq]
      exact List.isPrefixOf_iff_prefix.mpr (List.prefix_refl _)
    rw [this] at hab
    simp at hab
  · rw [if_neg h]
    cases push_dirs with
    | nil => exact ⟨List.Pairwise.nil, List.Pairwise.nil⟩
    | cons x xs =>
      cases xs with
      | nil => exact ⟨List.pairwise_singleton .. , List.pairwise_singleton ..⟩
      | cons y rest => simp at h

/-- C3 counterexample: on the input with local paths `["/d", "/a"]` (both
directories survive deduplication) the result lists `"/a"` before `"/d"`,
while the input's relative order has `"/d"` first — the step sorts, so
survivors do not keep their input order. -/
theorem dedup_not_input_ordered :
    (dedupPushDirs
        [⟨"/d".toList, "/d".toList⟩, ⟨"/a".toList, "/a".toList⟩]).map
        _LocationPaths.localPath
      = ["/a".toList, "/d".toList]
    ∧ ["/a".toList, "/d".toList] ≠ ["/d".toList, "/a".toList] := by
  constructor
  · decide
  · decide

/-- C2 counterexample evidence: on the push directory list with local
paths `["/a", "/a/b", "/a/c", "/d"]` the deduplication step of
`_build_push_lists` does not return `["/a", "/d"]`. -/
theorem dedup_spec_example_not_parents :
    (dedupPushDirs
        [⟨"/a".toList, "/a".toList⟩, ⟨"/a/b".toList, "/a/b".toList⟩,
         ⟨"/a/c".toList, "/a/c".toList⟩, ⟨"/d".toList, "/d".toList⟩]).map
        _LocationPaths.localPath
      ≠ ["/a".toList, "/d".toList] := by decide

/-- C2 (amended): on the push directory list with local paths
`["/a", "/a/b", "/a/c", "/d"]` the deduplication step of
`_build_push_lists` returns the directories with local paths
`["/a/b", "/a/c", "/d"]`, in that order: the marking loop drops each
entry whose local path is a prefix of its successor's, keeping the
deepest paths. -/
theorem dedup_spec_example_keeps_deepest :
    (dedupPushDirs
        [⟨"/a".toList, "/a".toList⟩, ⟨"/a/b".toList, "/a/b".toList⟩,
         ⟨"/a/c".toList, "/a/c".toList⟩, ⟨"/d".toList, "/d".toList⟩]).map
        _LocationPaths.localPath
      = ["/a/b".toList, "/a/c".toList, "/d".toList] := by decide

/- ## Push shape detection (C4) -/

theorem to_relative_push_dest_no_shape_error (sep : Char)
    (relative_root rpd local_path : List Char) :
    _to_relative_push_dest sep relative_root rpd local_path
      ≠ Except.error PyErr.typeErrorPushShape := by
  unfold _to_relative_push_dest
  by_cases h : is_subdir local_path relative_root = true
  · rw [if_pos h]; intro hcon; cases hcon
  · rw [if_neg h]; intro hcon; cases hcon

theorem mapExcept_no_shape_error (f : List Char → Except PyErr (List Char))
    (hf : ∀ x, f x ≠ Except.error PyErr.typeErrorPushShape)
    (l : List (List Char)) :
    mapExcept f l ≠ Except.error PyErr.typeErrorPushShape := by
  induction l with
  | nil => intro hcon; cases hcon
  | cons x xs ih =>
    simp only [mapExcept]
    cases hx : f x with
    | error e =>
      intro hcon
      have he : (Except.error e : Except PyErr (List (List Char)))
          = Except.error PyErr.typeErrorPushShape := hcon
      injection he with he2
      subst he2
      exact hf x hx
    | ok y =>
      cases hxs : mapExcept f xs with
      | error e =>
        intro hcon
        have he : (Except.error e : Except PyErr (List (List Char)))
            = Except.error PyErr.typeErrorPushShape := hcon
        injection he with he2
        subst he2
        exact ih hxs
      | ok ys => intro hcon; cases hcon

theorem build_push_dests_no_shape_error (sep : Char) (cfg : PushCfg)
    (st : WorkerStatePush) (push_sources : List (List Char)) :
    _build_push_dests sep cfg st push_sources
      ≠ Except.error PyErr.typeErrorPushShape := by
  unfold _build_push_dests
  cases cfg.push_relative_dir with
  | none => intro hcon; cases hcon
  | some relative_root =>
    simp only
    cases hm : mapExcept
        (_to_relative_push_dest sep relative_root
          (pyJoinStr '/' [st._remote_testplan_path, "push_files".toList]))
        push_sources with
    | error e =>
      intro hcon
      injection hcon with he
      subst he
      exact mapExcept_no_shape_error _
        (to_relative_push_dest_no_shape_error sep relative_root _) push_sources hm
    | ok push_dsts => intro hcon; cases hcon

/-- C4 (amended): `_build_push_lists` raises the push-shape `TypeError`
exactly when the push list is not all strings and contains an element of
Python length other than two.  In particular an all-strings list and an
all-2-tuples list are both accepted by the shape check, but so is a mixed
list whose string elements all have length 2: each such string is then
unpacked as a (source, destination) pair of single characters, so the
claimed `BadPushConfig` failure does not cover every mixed list. -/
theorem push_shape_error_iff (sep : Char) (fs : List Char → FileKind)
    (cfg : PushCfg) (st : WorkerStatePush) (push : List PushItem) :
    _build_push_lists sep fs cfg st push = Except.error PyErr.typeErrorPushShape
      ↔ (push.all isStrItem = false
          ∧ push.all (fun pair => pyLen pair = 2) = false) := by
  unfold _build_push_lists
  by_cases hs : push.all isStrItem = true
  · cases hd : _build_push_dests sep cfg st
        (push.map (fun x => match x with | .str s => s | .tup _ => [])) with
    | error e =>
      simp only [hs, if_true, hd, iff_false, Bool.true_eq_false, false_and,
        Except.error.injEq]
      intro he
      subst he
      exact absurd hd (build_push_dests_no_shape_error _ _ _ _)
    | ok r =>
      obtain ⟨st2, dsts, cmds⟩ := r
      simp [hs, hd]
  · rw [Bool.not_eq_true] at hs
    by_cases h2 : push.all (fun pair => pyLen pair = 2) = true
    · simp [hs, h2]
    · rw [Bool.not_eq_true] at h2
      simp [hs, h2]

/-- C4 counterexample: the push list `['ab', ('/x', '/y')]` mixes a string
and a tuple (so not every element is a string and not every element is a
2-tuple), yet `_build_push_lists` does not fail with the push-shape
`TypeError`: `len('ab') == 2`, so the 2-character string passes the
pair-length check and is unpacked as the pair `('a', 'b')`. -/
theorem mixed_push_len2_accepted :
    ([PushItem.str "ab".toList,
      PushItem.tup ["/x".toList, "/y".toList]].all isStrItem = false)
    ∧ ([PushItem.str "ab".toList,
        PushItem.tup ["/x".toList, "/y".toList]].all
          (fun e => isStrItem e = false) = false)
    ∧ _build_push_lists '/' (fun _ => FileKind.missing)
        ⟨some [PushItem.str "ab".toList,
               PushItem.tup ["/x".toList, "/y".toList]], [], none⟩
        ⟨"/var/tmp/u".toList, none, none, {}⟩
        [PushItem.str "ab".toList, PushItem.tup ["/x".toList, "/y".toList]]
      = Except.ok (⟨"/var/tmp/u".toList, none, none, {}⟩, [], [], [],
          [PyWarning.cannotBePushed "a".toList,
           PyWarning.cannotBePushed "/x".toList]) := by
  exact ⟨by decide, by decide, rfl⟩

/- ## Workspace staging flag (C1) -/

/-- C1: after workspace staging, `setup_metadata.workspace_pushed` is true
iff the local workspace was transferred by this worker: false when
`cfg.remote_workspace` is set (link path), false when the configured
`copy_workspace_check` command returned exit code 0 (link path), and true
when neither holds (transfer path); the transfer branch is taken in
exactly the same cases. -/
theorem workspace_pushed_iff_transferred (remote_workspace : Option (List Char))
    (checkExit : Option Nat) (md : WorkerSetupMetadata)
    (hmd : md.workspace_pushed = false) :
    ((_copy_workspace remote_workspace (shouldTransferWorkspace checkExit) md).2.workspace_pushed
        = true
      ↔ (remote_workspace = none ∧ checkExit ≠ some 0))
    ∧ ((_copy_workspace remote_workspace (shouldTransferWorkspace checkExit) md).1
        = WsAction.transferWorkspace
      ↔ (remote_workspace = none ∧ checkExit ≠ some 0)) := by
  cases remote_workspace with
  | some rw => simp [_copy_workspace, hmd]
  | none =>
    cases checkExit with
    | none => simp [_copy_workspace, shouldTransferWorkspace]
    | some rc =>
      by_cases h : rc = 0
      · subst h
        simp [_copy_workspace, shouldTransferWorkspace, hmd]
      · simp [_copy_workspace, shouldTransferWorkspace, h, hmd]

/-- C1 witness: starting from freshly initialized metadata, with no
remote workspace configured and a configured check returning exit code 1,
the transfer branch runs and the flag is set. -/
theorem workspace_pushed_iff_transferred_witness :
    ({} : WorkerSetupMetadata).workspace_pushed = false
    ∧ (_copy_workspace none (shouldTransferWorkspace (some 1)) {}).2.workspace_pushed = true :=
  ⟨rfl,
    ((workspace_pushed_iff_transferred none (some 1) {} rfl).1).mpr
      ⟨rfl, by decide⟩⟩

/- ## MetadataPull idempotence (C9) -/

/-- C9: for every worker metadata value frozen at the end of
`prepare_remote` and every number `n` of `MetadataPull` requests, the
pool's registered handler answers each request with the identical
`Metadata` message carrying that `SetupMetadata` payload, and the worker
state is unchanged: repeated pulls are idempotent and byte-equal. -/
theorem metadata_pull_idempotent (md : WorkerSetupMetadata) (n : Nat) :
    processMetadataPulls md (List.replicate n ⟨MsgKind.MetadataPull, none⟩)
      = (md, List.replicate n ⟨MsgKind.Metadata, some md⟩) := by
  induction n with
  | zero => rfl
  | succ k ih =>
    simp only [List.replicate_succ, processMetadataPulls,
      _worker_setup_metadata, ih]

/- ## Empty push list is a no-op (C10) -/

/-- C10: with an empty (or `None`) push list, `_push_files` executes no
subprocess command and leaves the worker state unchanged —
`setup_metadata.push_files` and `setup_metadata.push_dirs` remain `None`
(not empty lists) — even when `push_exclude` or `push_relative_dir` are
configured, which only produces a warning. -/
theorem push_files_empty_noop (sep : Char) (fs : List Char → FileKind)
    (cfg : PushCfg) (st : WorkerStatePush)
    (hpush : cfg.push = none ∨ cfg.push = some [])
    (hf : st.setup_metadata.push_files = none)
    (hd : st.setup_metadata.push_dirs = none) :
    _push_files sep fs cfg st
      = Except.ok (st, [],
          if cfg.push_exclude ≠ [] ∨ cfg.push_relative_dir.isSome
          then [PyWarning.ignoringPushOptions] else [])
    ∧ ∀ st2 cmds warns,
        _push_files sep fs cfg st = Except.ok (st2, cmds, warns) →
          st2.setup_metadata.push_files = none
          ∧ st2.setup_metadata.push_dirs = none
          ∧ cmds = [] := by
  have key : _push_files sep fs cfg st
      = Except.ok (st, [],
          if cfg.push_exclude ≠ [] ∨ cfg.push_relative_dir.isSome
          then [PyWarning.ignoringPushOptions] else []) := by
    rcases hpush with h | h <;> simp [_push_files, h]
  refine ⟨key, ?_⟩
  intro st2 cmds warns heq
  rw [key] at heq
  injection heq with h2
  rw [Prod.mk.injEq, Prod.mk.injEq] at h2
  obtain ⟨rfl, rfl, -⟩ := h2
  exact ⟨hf, hd, rfl⟩

/-- C10 witness: with `push = []` but a non-empty `push_exclude`, the
worker state is returned untouched, no command is issued, and only the
ignoring-push-options warning is logged. -/
theorem push_files_empty_noop_witness :
    _push_files '/' (fun _ => FileKind.dir)
        ⟨some [], ["p".toList], none⟩
        ⟨"/r".toList, none, none, {}⟩
      = Except.ok ((⟨"/r".toList, none, none, {}⟩ : WorkerStatePush), [],
          [PyWarning.ignoringPushOptions]) :=
  (push_files_empty_noop '/' (fun _ => FileKind.dir)
      ⟨some [], ["p".toList], none⟩ ⟨"/r".toList, none, none, {}⟩
      (Or.inr rfl) rfl rfl).1

/- ## The remote_push_dir attribute slip (C5) -/

/-- C5: evaluation of `_push_files` for a worker configured with
`push_relative_dir = '/home/u/ws'` and the source-only push list
`['/home/u/ws/a/x.txt']`.  Destination synthesis stores
`<remote_testplan_path>/push_files` into the attribute
`_remote_push_dir` and into `setup_metadata.push_dir`, but the worker
state field `remote_push_dir` declared in `RemoteWorker.__init__` is never
assigned and remains `None`: the assignment in `_build_push_dests` targets
a differently named attribute, so the claimed `remote_push_dir` update
does not happen. -/
theorem remote_push_dir_attribute_shadowed :
    _push_files '/'
        (fun p => if p = "/home/u/ws/a/x.txt".toList then FileKind.file
          else FileKind.missing)
        ⟨some [PushItem.str "/home/u/ws/a/x.txt".toList], [],
          some "/home/u/ws".toList⟩
        ⟨"/var/tmp/u/testplan/remote_workspaces/plan".toList, none, none, {}⟩
      = Except.ok
          (⟨"/var/tmp/u/testplan/remote_workspaces/plan".toList,
            none,
            some "/var/tmp/u/testplan/remote_workspaces/plan/push_files".toList,
            { push_dirs := some [],
              push_files := some
                ["/var/tmp/u/testplan/remote_workspaces/plan/push_files/a/x.txt".toList],
              push_dir := some
                "/var/tmp/u/testplan/remote_workspaces/plan/push_files".toList }⟩,
           [RCmd.mkdirRemote
              "/var/tmp/u/testplan/remote_workspaces/plan/push_files".toList,
            RCmd.mkdirRemote
              "/var/tmp/u/testplan/remote_workspaces/plan/push_files/a".toList,
            RCmd.transferData "/home/u/ws/a/x.txt".toList
              "/var/tmp/u/testplan/remote_workspaces/plan/push_files/a/x.txt".toList
              []],
           []) := by rfl

/- ## Remote working directory (C6) -/

theorem to_posix_id {sep : Char} {c : List Char} (h : sep ∉ c) :
    to_posix_path sep c = c := by
  unfold to_posix_path
  have : c.map (fun x => if x = sep then '/' else x) = c.map id := by
    refine List.map_congr_left (fun a ha => ?_)
    have hne : a ≠ sep := fun he => h (he ▸ ha)
    simp [hne]
  rw [this, List.map_id]

theorem isPrefixOf_append_self (l t : List Char) :
    l.isPrefixOf (l ++ t) = true :=
  List.isPrefixOf_iff_prefix.mpr (List.prefix_append l t)

theorem pyJoinStr_cons_structure (sep : Char) (c : List Char)
    (rest : List (List Char)) :
    ∃ t, pyJoinStr sep (c :: rest) = c ++ t := by
  cases rest with
  | nil => exact ⟨[], by simp [pyJoinStr]⟩
  | cons y r => exact ⟨sep :: pyJoinStr sep (y :: r), rfl⟩

theorem dropWhile_pyJoinStr (sep : Char) (comps : List (List Char))
    (hne : comps ≠ []) (hc : ∀ c ∈ comps, c ≠ [] ∧ sep ∉ c) :
    (pyJoinStr sep comps).dropWhile (fun c => c = sep)
      = pyJoinStr sep comps := by
  cases comps with
  | nil => exact absurd rfl hne
  | cons c0 rest =>
    obtain ⟨t, ht⟩ := pyJoinStr_cons_structure sep c0 rest
    rw [ht]
    obtain ⟨hne0, hsep0⟩ := hc c0 (by simp)
    cases c0 with
    | nil => exact absurd rfl hne0
    | cons a c0' =>
      have ha : a ≠ sep := fun he => hsep0 (he ▸ List.mem_cons_self a c0')
      simp [List.dropWhile_cons, ha]

theorem map_posix_pyJoinStr (sep : Char) (comps : List (List Char))
    (hc : ∀ c ∈ comps, sep ∉ c) :
    to_posix_path sep (pyJoinStr sep comps) = pyJoinStr '/' comps := by
  induction comps with
  | nil => rfl
  | cons c rest ih =>
    cases rest with
    | nil =>
      simp only [pyJoinStr]
      exact to_posix_id (hc c (by simp))
    | cons y r =>
      simp only [pyJoinStr, to_posix_path, List.map_append, List.map_cons,
        if_pos rfl]
      have h1 : to_posix_path sep c = c := to_posix_id (hc c (by simp))
      have h2 : to_posix_path sep (pyJoinStr sep (y :: r)) = pyJoinStr '/' (y :: r) :=
        ih (fun d hd => hc d (List.mem_cons_of_mem c hd))
      unfold to_posix_path at h1 h2
      rw [h1, h2]
      simp

/-- C6: when the local working directory lies under the local workspace —
`cwd = <ws_local><sep><components joined by sep>` — the derived remote
working directory is `workspace_paths.remote` joined with the relative
path converted to POSIX separators, independent of the local OS separator
(the right-hand side mentions no `sep`); and when the local working
directory is not within the local workspace, the derivation fails with the
fatal working-dir-outside-workspace `RuntimeError`. -/
theorem remote_working_dir_correct :
    (∀ (sep : Char) (ws_local ws_remote : List Char)
        (comps : List (List Char)),
      to_posix_path sep ws_remote = ws_remote →
      ws_remote ≠ [] →
      ws_remote.getLast? ≠ some sep →
      comps ≠ [] →
      (∀ c ∈ comps, c ≠ [] ∧ sep ∉ c) →
      _remote_working_dir sep ws_local ws_remote
          (ws_local ++ sep :: pyJoinStr sep comps)
        = Except.ok (ws_remote ++ '/' :: pyJoinStr '/' comps))
    ∧ (∀ (sep : Char) (ws_local ws_remote cwd : List Char),
      is_subdir cwd ws_local = false →
      _remote_working_dir sep ws_local ws_remote cwd
        = Except.error PyErr.workingDirOutsideWorkspace) := by
  constructor
  · intro sep ws_local ws_remote comps hposix hne hlast hcne hcomps
    have hsub : is_subdir (ws_local ++ sep :: pyJoinStr sep comps) ws_local = true :=
      isPrefixOf_append_self ws_local _
    unfold _remote_working_dir
    rw [hsub]
    simp only [Bool.not_true, Bool.false_eq_true, if_false]
    have hrel : relpathUnder sep (ws_local ++ sep :: pyJoinStr sep comps) ws_local
        = pyJoinStr sep comps := by
      unfold relpathUnder
      rw [List.drop_left]
      rw [List.dropWhile_cons]
      simp only [decide_eq_true_eq, if_pos rfl]
      exact dropWhile_pyJoinStr sep comps hcne hcomps
    rw [hrel]
    have hjoin : pyJoin2 sep ws_remote (pyJoinStr sep comps)
        = ws_remote ++ sep :: pyJoinStr sep comps := by
      unfold pyJoin2
      rw [if_neg hne, if_neg hlast]
    rw [hjoin]
    unfold to_posix_path
    rw [List.map_append, List.map_cons, if_pos rfl]
    have h1 : to_posix_path sep ws_remote = ws_remote := hposix
    unfold to_posix_path at h1
    rw [h1]
    have h2 : to_posix_path sep (pyJoinStr sep comps) = pyJoinStr '/' comps :=
      map_posix_pyJoinStr sep comps (fun c hc => (hcomps c hc).2)
    unfold to_posix_path at h2
    rw [h2]
  · intro sep ws_local ws_remote cwd hout
    unfold _remote_working_dir
    rw [hout]
    simp only [Bool.not_false, if_true]

/-- C6 witness: with a backslash local separator, workspace
`C:\ws` mapped to remote `/var/tmp/u/tp/ws`, and working directory
`C:\ws\a\b`, the remote working directory is `/var/tmp/u/tp/ws/a/b`; and a
working directory outside the workspace fails with the fatal error. -/
theorem remote_working_dir_correct_witness :
    _remote_working_dir '\\' "C:\\ws".toList "/var/tmp/u/tp/ws".toList
        ("C:\\ws".toList ++ '\\' :: pyJoinStr '\\' ["a".toList, "b".toList])
      = Except.ok ("/var/tmp/u/tp/ws".toList ++ '/' :: pyJoinStr '/' ["a".toList, "b".toList])
    ∧ _remote_working_dir '/' "/home/u/ws".toList "/var/tmp/u/tp/ws".toList
        "/other".toList
      = Except.error PyErr.workingDirOutsideWorkspace :=
  ⟨remote_working_dir_correct.1 '\\' "C:\\ws".toList "/var/tmp/u/tp/ws".toList
      ["a".toList, "b".toList] (by decide) (by decide) (by decide) (by decide)
      (by decide),
    remote_working_dir_correct.2 '/' "/home/u/ws".toList "/var/tmp/u/tp/ws".toList
      "/other".toList (by decide)⟩

/- ## Remote path layout (C7) -/

theorem pySplit_ne_nil (sep : Char) (l : List Char) : pySplit sep l ≠ [] := by
  cases l with
  | nil => simp [pySplit]
  | cons c rest =>
    by_cases h : c = sep
    · simp [pySplit, h]
    · cases hr : pySplit sep rest with
      | nil => simp [pySplit, h, hr]
      | cons hh tt => simp [pySplit, h, hr]

theorem pySplit_sepfree {sep : Char} {l : List Char} (h : sep ∉ l) :
    pySplit sep l = [l] := by
  induction l with
  | nil => rfl
  | cons c rest ih =>
    have hc : c ≠ sep := fun he => h (he ▸ List.mem_cons_self c rest)
    have hr : sep ∉ rest := fun hm => h (List.mem_cons_of_mem c hm)
    simp [pySplit, hc, ih hr]

theorem pySplit_append (sep : Char) (a b : List Char) :
    pySplit sep (a ++ sep :: b) = pySplit sep a ++ pySplit sep b := by
  induction a with
  | nil => simp [pySplit]
  | cons c a' ih =>
    by_cases h : c = sep
    · rw [List.cons_append]
      simp only [pySplit, if_pos h]
      rw [ih]
      simp
    · rw [List.cons_append]
      simp only [pySplit, if_neg h]
      rw [ih]
      cases hr : pySplit sep a' with
      | nil => exact absurd hr (pySplit_ne_nil sep a')
      | cons hh tt => simp

theorem pySplit_getLastD (sep : Char) (d base : List Char) (h : sep ∉ base) :
    (pySplit sep (d ++ sep :: base)).getLastD [] = base := by
  rw [pySplit_append, pySplit_sepfree h]
  rw [List.getLastD_eq_getLast?, List.getLast?_append]
  simp

/-- C7: the remote path layout invariants.  `remote_testplan_path` is
`/var/tmp/<user>/testplan/remote_workspaces/<slug(plan_name)>`,
`child_paths.remote` is `<remote_testplan_path>/child.py`, and
`workspace_paths.remote` is `<remote_testplan_path>/<basename of the
local workspace path>` (the last `os.sep`-separated component). -/
theorem remote_layout_invariants (user plan_slug : List Char) (sep : Char)
    (d base : List Char) (hbase : sep ∉ base) :
    _define_remote_dirs user plan_slug
      = "/var/tmp/".toList ++ user
          ++ "/testplan/remote_workspaces/".toList ++ plan_slug
    ∧ childRemotePath (_define_remote_dirs user plan_slug)
      = ("/var/tmp/".toList ++ user
          ++ "/testplan/remote_workspaces/".toList ++ plan_slug)
          ++ "/child.py".toList
    ∧ workspaceRemotePath sep (_define_remote_dirs user plan_slug)
        (d ++ sep :: base)
      = ("/var/tmp/".toList ++ user
          ++ "/testplan/remote_workspaces/".toList ++ plan_slug)
          ++ '/' :: base := by
  have h1 : _define_remote_dirs user plan_slug
      = "/var/tmp/".toList ++ user
          ++ "/testplan/remote_workspaces/".toList ++ plan_slug := by
    simp only [_define_remote_dirs, pyJoinStr, String.toList]
    simp [List.append_assoc]
  refine ⟨h1, ?_, ?_⟩
  · rw [childRemotePath, h1]
  · unfold workspaceRemotePath
    rw [pySplit_getLastD sep d base hbase, h1]

/-- C7 witness: with user `u`, plan slug `plan`, backslash separator and
local workspace `C:\proj\ws`, the layout invariants evaluate as claimed. -/
theorem remote_layout_invariants_witness :
    ('\\' ∉ "ws".toList)
    ∧ _define_remote_dirs "u".toList "plan".toList
      = "/var/tmp/u/testplan/remote_workspaces/plan".toList
    ∧ workspaceRemotePath '\\' (_define_remote_dirs "u".toList "plan".toList)
        ("C:\\proj".toList ++ '\\' :: "ws".toList)
      = ("/var/tmp/".toList ++ "u".toList
          ++ "/testplan/remote_workspaces/".toList ++ "plan".toList)
          ++ '/' :: "ws".toList :=
  ⟨by decide,
    by
      rw [(remote_layout_invariants "u".toList "plan".toList '\\'
        "C:\\proj".toList "ws".toList (by decide)).1]
      decide,
    (remote_layout_invariants "u".toList "plan".toList '\\'
      "C:\\proj".toList "ws".toList (by decide)).2.2⟩

/- ## Child-process command line (C8) -/

theorem add_testplan_import_path_shape (cfg : ProcCmdCfg)
    (cmd : List (List Char)) :
    ∃ tp, _add_testplan_import_path cfg cmd = cmd ++ tp
      ∧ (tp = [] ∨ ∃ p, tp = ["--testplan".toList, p]) := by
  unfold _add_testplan_import_path
  cases cfg.testplan_path with
  | some p => exact ⟨["--testplan".toList, p], rfl, Or.inr ⟨p, rfl⟩⟩
  | none =>
    by_cases h : cfg.ws_localP.isPrefixOf cfg.lib_path = true
    · rw [h]
      simp only [Bool.not_true, Bool.false_eq_true, if_false]
      exact ⟨_, rfl, Or.inr ⟨_, rfl⟩⟩
    · rw [Bool.not_eq_true] at h
      rw [h]
      simp only [Bool.not_false, if_true]
      exact ⟨[], (List.append_nil cmd).symm, Or.inl rfl⟩

theorem add_testplan_deps_shape (cfg : ProcCmdCfg) (cmd : List (List Char)) :
    ∃ deps,
      (if !cfg._should_transfer_workspace
        then _add_testplan_deps_import_path cfg cmd else cmd) = cmd ++ deps
      ∧ ((∃ p, deps = ["--testplan-deps".toList, p])
          ↔ (cfg._should_transfer_workspace = false ∧ cfg.deps_env.isSome = true))
      ∧ (deps = [] ∨ ∃ p, deps = ["--testplan-deps".toList, p]) := by
  cases hst : cfg._should_transfer_workspace with
  | true => exact ⟨[], by simp, by simp, Or.inl rfl⟩
  | false =>
    simp only [Bool.not_false, if_true]
    unfold _add_testplan_deps_import_path
    cases hde : cfg.deps_env with
    | none => exact ⟨[], (List.append_nil cmd).symm, by simp, Or.inl rfl⟩
    | some v =>
      exact ⟨["--testplan-deps".toList, v], rfl, by simp, Or.inr ⟨v, rfl⟩⟩

/-- C8: the child-process command built by `_proc_cmd` is exactly
`<python> -uB <child>` followed by the flag pairs `--index`, `--address`,
`--type remote_worker`, `--log-level`, `--wd`, `--runpath`,
`--remote-pool-type` and `--remote-pool-size` in that order, optionally
followed by `--testplan <path>`; `--testplan-deps <path>` is appended
exactly when the workspace was not transferred and the
`TESTPLAN_DEPENDENCIES_PATH` environment variable is set. -/
theorem proc_cmd_flag_layout (cfg : ProcCmdCfg) :
    ∃ tp deps,
      _proc_cmd cfg
        = [cfg.python_binary, "-uB".toList, cfg.child_remote,
           "--index".toList, cfg.index,
           "--address".toList, cfg.address,
           "--type".toList, "remote_worker".toList,
           "--log-level".toList, cfg.log_level,
           "--wd".toList, cfg.wd_remote,
           "--runpath".toList, cfg.runpath_remote,
           "--remote-pool-type".toList, cfg.pool_type,
           "--remote-pool-size".toList, cfg.pool_size] ++ tp ++ deps
      ∧ (tp = [] ∨ ∃ p, tp = ["--testplan".toList, p])
      ∧ ((∃ p, deps = ["--testplan-deps".toList, p])
          ↔ (cfg._should_transfer_workspace = false
              ∧ cfg.deps_env.isSome = true))
      ∧ (deps = [] ∨ ∃ p, deps = ["--testplan-deps".toList, p]) := by
  obtain ⟨tp, htp, htpshape⟩ := add_testplan_import_path_shape cfg
    [cfg.python_binary, "-uB".toList, cfg.child_remote,
     "--index".toList, cfg.index,
     "--address".toList, cfg.address,
     "--type".toList, "remote_worker".toList,
     "--log-level".toList, cfg.log_level,
     "--wd".toList, cfg.wd_remote,
     "--runpath".toList, cfg.runpath_remote,
     "--remote-pool-type".toList, cfg.pool_type,
     "--remote-pool-size".toList, cfg.pool_size]
  obtain ⟨deps, hdeps, hiff, hdshape⟩ := add_testplan_deps_shape cfg
    (_add_testplan_import_path cfg
      [cfg.python_binary, "-uB".toList, cfg.child_remote,
       "--index".toList, cfg.index,
       "--address".toList, cfg.address,
       "--type".toList, "remote_worker".toList,
       "--log-level".toList, cfg.log_level,
       "--wd".toList, cfg.wd_remote,
       "--runpath".toList, cfg.runpath_remote,
       "--remote-pool-type".toList, cfg.pool_type,
       "--remote-pool-size".toList, cfg.pool_size])
  refine ⟨tp, deps, ?_, htpshape, hiff, hdshape⟩
  show (if !cfg._should_transfer_workspace
      then _add_testplan_deps_import_path cfg
        (_add_testplan_import_path cfg
          [cfg.python_binary, "-uB".toList, cfg.child_remote,
           "--index".toList, cfg.index,
           "--address".toList, cfg.address,
           "--type".toList, "remote_worker".toList,
           "--log-level".toList, cfg.log_level,
           "--wd".toList, cfg.wd_remote,
           "--runpath".toList, cfg.runpath_remote,
           "--remote-pool-type".toList, cfg.pool_type,
           "--remote-pool-size".toList, cfg.pool_size])
      else _add_testplan_import_path cfg
        [cfg.python_binary, "-uB".toList, cfg.child_remote,
         "--index".toList, cfg.index,
         "--address".toList, cfg.address,
         "--type".toList, "remote_worker".toList,
         "--log-level".toList, cfg.log_level,
         "--wd".toList, cfg.wd_remote,
         "--runpath".toList, cfg.runpath_remote,
         "--remote-pool-type".toList, cfg.pool_type,
         "--remote-pool-size".toList, cfg.pool_size]) = _
  rw [hdeps, htp, List.append_assoc]
